import Mathlib

/-!
Verification development for the acoustic-absorption comparison tool
(`datacomparaison.py`). The numeric semantics of the Python/numpy code is
embedded over `ℚ`; `NaN` cells of a spreadsheet are modelled as `none`,
and the non-finite results numpy produces on division by zero are modelled
by an explicit `PyFloat` type with `inf` and `nan` constructors.
-/

namespace DataComparaison

/-! ## Tabular extraction (`load_data_from_excel`, lines 24-59)

A raw spreadsheet table as read by `pd.read_excel`: a rectangular grid of
cells, each either a numeric value or missing (`NaN`).  `ncols` is the
column count (`df.shape[1]`). -/

structure RawTable where
  ncols : ℕ
  rows : List (List (Option ℚ))

/-- `df.iloc[:, 0].dropna().values`: the first column with missing
entries removed. -/
def col0 (rows : List (List (Option ℚ))) : List ℚ :=
  rows.filterMap (fun r => r.getD 0 none)

/-- `df.iloc[:, 1:].dropna(axis=0, how="all").values`: all columns but the
first, keeping only rows that are not entirely missing. -/
def absorptionBlock (rows : List (List (Option ℚ))) : List (List (Option ℚ)) :=
  (rows.map (List.drop 1)).filter (fun r => r.any Option.isSome)

/-- `thicknesses = np.array([10, 20, 30])` (line 47). -/
def thicknessesGrid : List ℕ := [10, 20, 30]

/-- `densities = np.array([75, 110, 150])` (line 48). -/
def densitiesGrid : List ℕ := [75, 110, 150]

/-- `load_data_from_excel` (lines 24-59): validates that the table has at
least two columns, extracts the frequency column (dropping missing values)
and the absorption block (dropping all-missing rows), and fails — the
`except` branch returning four `None`s — when the column count is below 2
or the frequency column is empty after dropping. -/
def load_data_from_excel (t : RawTable) :
    Option (List ℚ × List ℕ × List ℕ × List (List (Option ℚ))) :=
  if t.ncols < 2 then none
  else if (col0 t.rows).length = 0 then none
  else some (col0 t.rows, thicknessesGrid, densitiesGrid, absorptionBlock t.rows)

/-! ## Parameter selection (lines 99-105, 112-115) -/

/-- The column of a row-major matrix at index `c`
(`absorption_data[:, c]`). -/
def matrixColumn (data : List (List ℚ)) (c : ℕ) : List ℚ :=
  data.map (fun r => r.getD c 0)

/-- `np.where(grid == v)[0][0]`: the first index of `v` in the grid,
`none` modelling the `IndexError` raised when `v` is absent. -/
def whereFirst (grid : List ℕ) (v : ℕ) : Option ℕ :=
  grid.findIdx? (fun x => x == v)

/-- Lines 100-101 and 114: look up the thickness and density indices in the
fixed grids and take the matrix column at
`thickness_index * len(densities) + density_index`. -/
def absorption_curve (data : List (List ℚ)) (thickness density : ℕ) :
    Option (List ℚ) :=
  match whereFirst thicknessesGrid thickness, whereFirst densitiesGrid density with
  | some ti, some di => some (matrixColumn data (ti * densitiesGrid.length + di))
  | _, _ => none

/-! ## Area computation (`calculate_area`, lines 119-122) -/

/-- `np.sum((absorption_curve[:-1] + absorption_curve[1:]) / 2 *
np.diff(frequencies))`. -/
def calculate_area (frequencies absorption_curve : List ℚ) : ℚ :=
  (List.zipWith (fun yy dx => yy / 2 * dx)
    (List.zipWith (· + ·) absorption_curve absorption_curve.tail)
    (List.zipWith (fun a b => b - a) frequencies frequencies.tail)).sum

/-! ## Comparison message (lines 128-136) -/

/-- A numpy 64-bit float result, abstracted: a finite value is an exact
rational, and the non-finite values that division by zero produces are
kept explicit (`x / 0 = ±inf` for `x ≠ 0`, `0 / 0 = nan`). -/
inductive PyFloat where
  | fin (q : ℚ)
  | inf
  | nan
deriving DecidableEq

/-- `((a - b) / b) * 100` on numpy floats: `inf` when the numerator is
nonzero and the denominator zero, `nan` when both are zero (multiplying a
non-finite value by 100 leaves it non-finite). The sign of the infinity is
not tracked; the program only reaches this with nonnegative numerators. -/
def pctOf (num den : ℚ) : PyFloat :=
  if den = 0 then (if num = 0 then PyFloat.nan else PyFloat.inf)
  else PyFloat.fin (num / den * 100)

/-- Decimal rendering of `n.toNat` padded to two digits, for the
fractional part of a fixed-point number. -/
def twoDigits (n : ℤ) : String :=
  if n.toNat < 10 then "0" ++ toString n.toNat else toString n.toNat

/-- Python's `f"{q:.2f}"` on an exact rational: round to the nearest
hundredth and print with exactly two decimals. -/
def format2f (q : ℚ) : String :=
  if q < 0 then
    "-" ++ toString ((-(round (q * 100))) / 100) ++ "." ++ twoDigits ((-(round (q * 100))) % 100)
  else
    toString ((round (q * 100)) / 100) ++ "." ++ twoDigits ((round (q * 100)) % 100)

/-- `f"{v:.2f}"` on a numpy float: non-finite values print as `inf`/`nan`. -/
def pyFormat2f : PyFloat → String
  | PyFloat.fin q => format2f q
  | PyFloat.inf => "inf"
  | PyFloat.nan => "nan"

/-- A Python value as bound in the script: the message f-strings end in
`.capitalize` without parentheses (lines 133, 136), so what is stored is
the *bound method* `capitalize` of the sentence, not the sentence itself.
`boundCapitalize s` records the underlying sentence `s`. -/
inductive PyVal where
  | boundCapitalize (s : String)
deriving DecidableEq

/-- `format_filename` (lines 128-129): `filename.replace("_", " ")`. The
pattern is the single character `_`, so the replacement is the character
map sending `_` to a space. -/
def format_filename (filename : String) : String :=
  String.mk (filename.data.map (fun c => if c = '_' then ' ' else c))

/-- The two variables set by the comparison branch (lines 131-136). -/
structure CompResult where
  diff_percentage : PyFloat
  absorption_message : PyVal
deriving DecidableEq

/-- Lines 131-136: if `area_1 > area_2` divide the gap by `area_2` and name
file 1 first, otherwise divide by `area_1` and name file 2 first. The
division is not guarded against a zero denominator. -/
def compareAreas (area_1 area_2 : ℚ) (file_name_1 file_name_2 : String) :
    CompResult :=
  if area_1 > area_2 then
    { diff_percentage := pctOf (area_1 - area_2) area_2
      absorption_message := PyVal.boundCapitalize
        (format_filename file_name_1 ++ " absorbs "
          ++ pyFormat2f (pctOf (area_1 - area_2) area_2)
          ++ "% more than " ++ format_filename file_name_2 ++ ".") }
  else
    { diff_percentage := pctOf (area_2 - area_1) area_1
      absorption_message := PyVal.boundCapitalize
        (format_filename file_name_2 ++ " absorbs "
          ++ pyFormat2f (pctOf (area_2 - area_1) area_1)
          ++ "% more than " ++ format_filename file_name_1 ++ ".") }

/-! ## Frequency aligner

The repository has no alignment code under `src/`; the spec describes it
(§4.2): linear interpolation of each column onto the reference axis, with
linear extrapolation from the nearest segment outside the known range. -/

/-- The value at `q` of the line through `(x1, y1)` and `(x2, y2)`. -/
def interpSeg (x1 y1 x2 y2 q : ℚ) : ℚ :=
  y1 + (q - x1) * (y2 - y1) / (x2 - x1)

/-- Modelled from the spec: the Frequency Aligner's one-dimensional
interpolant over known points `(x, y)` (missing from `src/`). Linear
between consecutive knots; queries outside the known range extrapolate
linearly from the nearest segment's line: left of the second knot the
first segment's line applies, and when the query lies right of a segment
with no further knots (`rest = []`) that last segment's line applies
instead of clamping. -/
def interp : List (ℚ × ℚ) → ℚ → ℚ
  | [], _ => 0
  | [(_, y)], _ => y
  | (x1, y1) :: p2 :: rest, q =>
    if q ≤ p2.1 ∨ rest = [] then interpSeg x1 y1 p2.1 p2.2 q
    else interp (p2 :: rest) q

/-- Modelled from the spec: `align(reference, other_freq, other_data)`
(missing from `src/`) resamples the data column-wise onto the reference
frequency points; the matrix is held column-major, one list per series. -/
def alignCols (reference other_freq : List ℚ) (other_cols : List (List ℚ)) :
    List (List ℚ) :=
  other_cols.map (fun col => reference.map (fun q => interp (other_freq.zip col) q))

/-- Modelled from the spec: the caller invokes the Aligner only when the
two frequency series differ (exact equality check, no tolerance). -/
def reconcile (f1 f2 : List ℚ) (cols : List (List ℚ)) : List (List ℚ) :=
  if f1 = f2 then cols else alignCols f1 f2 cols

end DataComparaison

namespace DataComparaison

/-- `round q` computed by exhibiting `q + 1/2` as an integer over a
natural and taking the integer division. -/
theorem round_val (q : ℚ) (n : ℤ) (d : ℕ) (hq : q + 1/2 = (n : ℚ) / (d : ℚ)) :
    round q = n / (d : ℤ) := by
  rw [round_eq, hq, Rat.floor_intCast_div_natCast]

/-- Peeling two leading points off a trapezoidal sum. -/
theorem calculate_area_cons₂ (a b c d : ℚ) (x y : List ℚ) :
    calculate_area (a :: b :: x) (c :: d :: y) =
      (c + d) / 2 * (b - a) + calculate_area (b :: x) (d :: y) := by
  simp [calculate_area]

/-- The zipWith form of `calculate_area` as an indexed sum over
consecutive points. -/
theorem calculate_area_eq_sum (x y : List ℚ) (h : x.length = y.length) :
    calculate_area x y =
      ∑ i in Finset.range (x.length - 1),
        (y.getD i 0 + y.getD (i + 1) 0) / 2 * (x.getD (i + 1) 0 - x.getD i 0) := by
  induction x generalizing y with
  | nil => simp [calculate_area]
  | cons a x ih =>
    cases y with
    | nil => simp at h
    | cons c y =>
      cases x with
      | nil =>
        cases y with
        | nil => simp [calculate_area]
        | cons d y => simp at h
      | cons b x =>
        cases y with
        | nil => simp at h
        | cons d y =>
          have h2 : (b :: x).length = (d :: y).length := by
            simpa using h
          rw [calculate_area_cons₂, ih (d :: y) h2]
          simp only [List.length_cons, Nat.add_sub_cancel]
          rw [Finset.sum_range_succ']
          simp only [List.getD_cons_succ, List.getD_cons_zero]
          ring

/-- `getD` on a reversed list reads the mirrored index. -/
theorem getD_reverse_of_lt {α : Type} (l : List α) (i : ℕ) (h : i < l.length) (d : α) :
    l.reverse.getD i d = l.getD (l.length - 1 - i) d := by
  rw [List.getD_eq_getElem?_getD, List.getD_eq_getElem?_getD, List.getElem?_reverse h]

/-- Reversing both inputs negates the trapezoidal area: the integral is
orientation-dependent. -/
theorem calculate_area_reverse (x y : List ℚ) (h : x.length = y.length) :
    calculate_area x.reverse y.reverse = - calculate_area x y := by
  have hr : x.reverse.length = y.reverse.length := by simpa using h
  rw [calculate_area_eq_sum x.reverse y.reverse hr, calculate_area_eq_sum x y h]
  simp only [List.length_reverse]
  have key : ∀ i ∈ Finset.range (x.length - 1),
      (y.reverse.getD i 0 + y.reverse.getD (i + 1) 0) / 2 *
        (x.reverse.getD (i + 1) 0 - x.reverse.getD i 0) =
      -((fun j => (y.getD j 0 + y.getD (j + 1) 0) / 2 *
          (x.getD (j + 1) 0 - x.getD j 0)) (x.length - 1 - 1 - i)) := by
    intro i hi
    rw [Finset.mem_range] at hi
    have h1 : i < y.length := by omega
    have h2 : i + 1 < y.length := by omega
    have h3 : i < x.length := by omega
    have h4 : i + 1 < x.length := by omega
    rw [getD_reverse_of_lt y i h1, getD_reverse_of_lt y (i + 1) h2,
        getD_reverse_of_lt x i h3, getD_reverse_of_lt x (i + 1) h4]
    have e1 : y.length - 1 - i = (x.length - 1 - 1 - i) + 1 := by omega
    have e2 : y.length - 1 - (i + 1) = x.length - 1 - 1 - i := by omega
    have e3 : x.length - 1 - i = (x.length - 1 - 1 - i) + 1 := by omega
    have e4 : x.length - 1 - (i + 1) = x.length - 1 - 1 - i := by omega
    rw [e1, e2, e3, e4]
    ring
  rw [Finset.sum_congr rfl key]
  rw [Finset.sum_neg_distrib]
  exact congrArg Neg.neg (Finset.sum_range_reflect
    (fun j => (y.getD j 0 + y.getD (j + 1) 0) / 2 * (x.getD (j + 1) 0 - x.getD j 0))
    (x.length - 1))

/-- Claim C1: `calculate_area` computes the trapezoidal rule exactly: for
every frequency vector `x` and curve `y` of equal length `n ≥ 2` it
returns `∑ i, (y[i] + y[i+1]) / 2 * (x[i+1] - x[i])`, and in particular
`calculate_area [100, 200] [0.5, 0.5] = 50`. -/
theorem C1_calculate_area_trapezoidal (x y : List ℚ) (n : ℕ)
    (hx : x.length = n) (hy : y.length = n) (hn : 2 ≤ n) :
    calculate_area x y =
      ∑ i in Finset.range (n - 1),
        (y.getD i 0 + y.getD (i + 1) 0) / 2 * (x.getD (i + 1) 0 - x.getD i 0) ∧
    calculate_area [100, 200] [0.5, 0.5] = 50 := by
  constructor
  · subst hx
    exact calculate_area_eq_sum x y (by omega)
  · norm_num [calculate_area]

/-- Witness for C1 at `x = [100, 200]`, `y = [0.5, 0.5]`, `n = 2`. -/
theorem C1_calculate_area_trapezoidal_witness :
    ([100, 200] : List ℚ).length = 2 ∧ ([0.5, 0.5] : List ℚ).length = 2 ∧ 2 ≤ 2 ∧
      (calculate_area [100, 200] [0.5, 0.5] =
        ∑ i in Finset.range (2 - 1),
          (([0.5, 0.5] : List ℚ).getD i 0 + ([0.5, 0.5] : List ℚ).getD (i + 1) 0) / 2 *
            (([100, 200] : List ℚ).getD (i + 1) 0 - ([100, 200] : List ℚ).getD i 0) ∧
       calculate_area [100, 200] [0.5, 0.5] = 50) :=
  ⟨rfl, rfl, le_refl 2,
    C1_calculate_area_trapezoidal [100, 200] [0.5, 0.5] 2 rfl rfl (le_refl 2)⟩

/-- Counterexample to claim C6 as stated: reversing both the frequency
vector and the curve does not leave `calculate_area` unchanged — on
`x = [100, 200]`, `y = [0.5, 0.5]` the reversed pair yields `-50`, not
`50`. -/
theorem C6_reverse_counterexample :
    calculate_area ([100, 200] : List ℚ).reverse ([0.5, 0.5] : List ℚ).reverse ≠
      calculate_area [100, 200] [0.5, 0.5] := by
  show calculate_area [200, 100] [0.5, 0.5] ≠ calculate_area [100, 200] [0.5, 0.5]
  norm_num [calculate_area]

/-- Claim C6 (amended): `calculate_area` is anti-invariant under reversing
both inputs simultaneously: for every `x` and `y` of equal length `≥ 2`,
`calculate_area x.reverse y.reverse = -(calculate_area x y)` — the
trapezoidal integral flips sign with the orientation of the axis. -/
theorem C6_calculate_area_reverse_neg (x y : List ℚ) (n : ℕ)
    (hx : x.length = n) (hy : y.length = n) (hn : 2 ≤ n) :
    calculate_area x.reverse y.reverse = - calculate_area x y :=
  calculate_area_reverse x y (by omega)

/-- Witness for C6 (amended) at `x = [100, 200]`, `y = [0.5, 0.5]`,
`n = 2`. -/
theorem C6_calculate_area_reverse_neg_witness :
    ([100, 200] : List ℚ).length = 2 ∧ ([0.5, 0.5] : List ℚ).length = 2 ∧ 2 ≤ 2 ∧
      calculate_area ([100, 200] : List ℚ).reverse ([0.5, 0.5] : List ℚ).reverse =
        - calculate_area [100, 200] [0.5, 0.5] :=
  ⟨rfl, rfl, le_refl 2,
    C6_calculate_area_reverse_neg [100, 200] [0.5, 0.5] 2 rfl rfl (le_refl 2)⟩

/-- A `filterMap` whose function succeeds on every element preserves the
length. -/
theorem filterMap_length_of_forall_some {α β : Type} (g : α → Option β) (l : List α)
    (h : ∀ a ∈ l, (g a).isSome) : (l.filterMap g).length = l.length := by
  induction l with
  | nil => rfl
  | cons a l ih =>
    rcases Option.isSome_iff_exists.mp (h a (by simp)) with ⟨b, hb⟩
    simp [List.filterMap_cons, hb, ih (fun a ha => h a (by simp [ha]))]

/-- The absorption block as a filter over original rows followed by
dropping the frequency column. -/
theorem absorptionBlock_eq (rows : List (List (Option ℚ))) :
    absorptionBlock rows =
      (rows.filter (fun r => (r.drop 1).any Option.isSome)).map (List.drop 1) := by
  unfold absorptionBlock
  rw [List.filter_map]
  rfl

/-- Claim C3: extraction fails exactly when the table has fewer than two
columns or the first column is empty after dropping missing values; every
table with `≥ 2` columns and a non-empty frequency column succeeds. -/
theorem C3_extract_failure_iff (t : RawTable) :
    load_data_from_excel t = none ↔ (t.ncols < 2 ∨ col0 t.rows = []) := by
  unfold load_data_from_excel
  split_ifs with h1 h2
  · simp [h1]
  · simp [List.length_eq_zero.mp h2]
  · have hne : col0 t.rows ≠ [] := by
      intro hc
      exact h2 (by simp [hc])
    simp [h1, hne]

/-- Witness for C3 at a one-column table (fails) — the `Iff` instantiated
at a concrete input. -/
theorem C3_extract_failure_iff_witness :
    load_data_from_excel (RawTable.mk 1 [[some 100]]) = none ↔
      ((RawTable.mk 1 [[some 100]]).ncols < 2 ∨
        col0 (RawTable.mk 1 [[some 100]]).rows = []) :=
  C3_extract_failure_iff (RawTable.mk 1 [[some 100]])

/-- Counterexample to claim C2 as stated: on the two-column table with
rows `(100, 0.5)` and `(NaN, 0.6)` extraction succeeds but returns a
frequency series of length 1 and an absorption matrix with 2 rows — the
frequency column drops its missing entry while the absorption block keeps
both rows, so the row counts disagree. -/
theorem C2_row_count_counterexample :
    (load_data_from_excel
        (RawTable.mk 2 [[some 100, some (1/2)], [none, some (3/5)]])).map
      (fun r => (r.1.length, r.2.2.2.length)) = some (1, 2) ∧ (1 : ℕ) ≠ 2 := by
  constructor
  · decide
  · decide

/-- Claim C2 (amended): for a rectangular table with at least two columns
and at least one non-missing value in column 0, extraction succeeds with a
non-empty frequency series, and the absorption matrix has one row per
input row whose absorption block is not entirely missing; when no cell of
the table is missing both counts equal the number of input rows (and so
agree). -/
theorem C2_extraction_row_counts (t : RawTable) (h2 : 2 ≤ t.ncols)
    (hrect : ∀ r ∈ t.rows, r.length = t.ncols)
    (hne : col0 t.rows ≠ []) :
    load_data_from_excel t =
      some (col0 t.rows, thicknessesGrid, densitiesGrid, absorptionBlock t.rows) ∧
    1 ≤ (col0 t.rows).length ∧
    (absorptionBlock t.rows).length =
      (t.rows.filter (fun r => (r.drop 1).any Option.isSome)).length ∧
    ((∀ r ∈ t.rows, ∀ c ∈ r, c.isSome) →
      (col0 t.rows).length = t.rows.length ∧
        (absorptionBlock t.rows).length = t.rows.length) := by
  have hpos : 0 < (col0 t.rows).length := List.length_pos.mpr hne
  refine ⟨?_, hpos, ?_, ?_⟩
  · unfold load_data_from_excel
    rw [if_neg (by omega), if_neg (by omega)]
  · rw [absorptionBlock_eq, List.length_map]
  · intro hall
    constructor
    · apply filterMap_length_of_forall_some
      intro r hr
      cases r with
      | nil =>
        have := hrect _ hr
        simp at this
        omega
      | cons c r2 =>
        simpa using hall _ hr c (by simp)
    · rw [absorptionBlock_eq, List.length_map]
      have hblk : ∀ r ∈ t.rows, ((r.drop 1).any Option.isSome) = true := by
        intro r hr
        have hlen : r.length = t.ncols := hrect r hr
        have hd : 0 < (r.drop 1).length := by
          simp [hlen]
          omega
        obtain ⟨c, hc⟩ := List.exists_mem_of_length_pos hd
        rw [List.any_eq_true]
        exact ⟨c, hc, hall r hr c (List.mem_of_mem_drop hc)⟩
      rw [List.filter_eq_self.mpr hblk]

/-- Witness for C2 (amended) at a fully numeric 2×2 table. -/
theorem C2_extraction_row_counts_witness :
    2 ≤ (RawTable.mk 2 [[some 100, some 1], [some 200, some 2]]).ncols ∧
    (∀ r ∈ (RawTable.mk 2 [[some 100, some 1], [some 200, some 2]]).rows,
      r.length = (RawTable.mk 2 [[some 100, some 1], [some 200, some 2]]).ncols) ∧
    col0 (RawTable.mk 2 [[some 100, some 1], [some 200, some 2]]).rows ≠ [] ∧
    (load_data_from_excel (RawTable.mk 2 [[some 100, some 1], [some 200, some 2]]) =
      some (col0 [[some 100, some 1], [some 200, some 2]], thicknessesGrid,
        densitiesGrid, absorptionBlock [[some 100, some 1], [some 200, some 2]]) ∧
    1 ≤ (col0 [[some 100, some 1], [some 200, some 2]]).length ∧
    (absorptionBlock [[some 100, some 1], [some 200, some 2]]).length =
      (([[some 100, some 1], [some 200, some 2]] : List (List (Option ℚ))).filter
        (fun r => (r.drop 1).any Option.isSome)).length ∧
    ((∀ r ∈ ([[some 100, some 1], [some 200, some 2]] : List (List (Option ℚ))),
        ∀ c ∈ r, c.isSome) →
      (col0 [[some 100, some 1], [some 200, some 2]]).length =
        ([[some 100, some 1], [some 200, some 2]] : List (List (Option ℚ))).length ∧
      (absorptionBlock [[some 100, some 1], [some 200, some 2]]).length =
        ([[some 100, some 1], [some 200, some 2]] : List (List (Option ℚ))).length)) :=
  ⟨by decide, by decide, by decide,
    C2_extraction_row_counts (RawTable.mk 2 [[some 100, some 1], [some 200, some 2]])
      (by decide) (by decide) (by decide)⟩

/-- The comparison when the first area is strictly larger: line 131's
branch. -/
theorem compareAreas_gt (a1 a2 : ℚ) (L1 L2 : String) (h : a2 < a1) :
    compareAreas a1 a2 L1 L2 =
      { diff_percentage := pctOf (a1 - a2) a2
        absorption_message := PyVal.boundCapitalize
          (format_filename L1 ++ " absorbs " ++ pyFormat2f (pctOf (a1 - a2) a2)
            ++ "% more than " ++ format_filename L2 ++ ".") } := by
  unfold compareAreas
  rw [if_pos h]

/-- The comparison when the first area is not larger: line 134's branch. -/
theorem compareAreas_le (a1 a2 : ℚ) (L1 L2 : String) (h : a1 ≤ a2) :
    compareAreas a1 a2 L1 L2 =
      { diff_percentage := pctOf (a2 - a1) a1
        absorption_message := PyVal.boundCapitalize
          (format_filename L2 ++ " absorbs " ++ pyFormat2f (pctOf (a2 - a1) a1)
            ++ "% more than " ++ format_filename L1 ++ ".") } := by
  unfold compareAreas
  rw [if_neg (not_lt.mpr h)]

/-- `f"{0:.2f}"` renders as `0.00`. -/
theorem format2f_zero : format2f 0 = "0.00" := by
  have h0 : round ((0 : ℚ) * 100) = 0 := by norm_num
  unfold format2f
  rw [if_neg (by norm_num), h0]
  decide

/-- Counterexample to claim C5 as stated: with equal areas (50 and 50) the
two argument orders attribute the "more absorption" sentence to different
labels — each order names its second-listed label — so the attribution is
not the same label content in both orders. -/
theorem C5_symmetry_counterexample :
    (compareAreas 50 50 "L1" "L2").absorption_message ≠
      (compareAreas 50 50 "L2" "L1").absorption_message := by
  rw [compareAreas_le 50 50 "L1" "L2" (le_refl 50),
      compareAreas_le 50 50 "L2" "L1" (le_refl 50)]
  have hp : pctOf (50 - 50 : ℚ) 50 = PyFloat.fin 0 := by
    unfold pctOf
    rw [if_neg (by norm_num)]
    norm_num
  simp only [hp]
  rw [show pyFormat2f (PyFloat.fin 0) = "0.00" from format2f_zero]
  decide

/-- Claim C5 (amended): both argument orders always report the same
percentage, equal to `(max - min) / min * 100` whenever the smaller area
is nonzero; when the two areas differ the full results (percentage and
message, hence the label credited with more absorption) coincide across
the two orders, while for equal areas each order credits its second-listed
label. -/
theorem C5_compare_symmetry (a1 a2 : ℚ) (L1 L2 : String) :
    (compareAreas a1 a2 L1 L2).diff_percentage =
      (compareAreas a2 a1 L2 L1).diff_percentage ∧
    (a1 ≠ a2 → compareAreas a1 a2 L1 L2 = compareAreas a2 a1 L2 L1) ∧
    (min a1 a2 ≠ 0 → (compareAreas a1 a2 L1 L2).diff_percentage =
      PyFloat.fin ((max a1 a2 - min a1 a2) / min a1 a2 * 100)) := by
  rcases lt_trichotomy a1 a2 with h | h | h
  · have hL : compareAreas a1 a2 L1 L2 = compareAreas a2 a1 L2 L1 := by
      rw [compareAreas_le a1 a2 L1 L2 (le_of_lt h),
          compareAreas_gt a2 a1 L2 L1 h]
    refine ⟨by rw [hL], fun _ => hL, ?_⟩
    intro hmin
    rw [min_eq_left (le_of_lt h)] at hmin
    rw [min_eq_left (le_of_lt h), max_eq_right (le_of_lt h),
        compareAreas_le a1 a2 L1 L2 (le_of_lt h)]
    unfold pctOf
    rw [if_neg hmin]
  · subst h
    refine ⟨?_, fun hne => absurd rfl hne, ?_⟩
    · rw [compareAreas_le a1 a1 L1 L2 (le_refl a1),
          compareAreas_le a1 a1 L2 L1 (le_refl a1)]
    intro hmin
    rw [min_self] at hmin
    rw [min_self, max_self, compareAreas_le a1 a1 L1 L2 (le_refl a1)]
    unfold pctOf
    rw [if_neg hmin]
  · have hL : compareAreas a1 a2 L1 L2 = compareAreas a2 a1 L2 L1 := by
      rw [compareAreas_gt a1 a2 L1 L2 h,
          compareAreas_le a2 a1 L2 L1 (le_of_lt h)]
    refine ⟨by rw [hL], fun _ => hL, ?_⟩
    intro hmin
    rw [min_eq_right (le_of_lt h)] at hmin
    rw [min_eq_right (le_of_lt h), max_eq_left (le_of_lt h),
        compareAreas_gt a1 a2 L1 L2 h]
    unfold pctOf
    rw [if_neg hmin]

/-- Witness for C5 (amended) at areas `40` and `60`, labels `"A"`, `"B"`. -/
theorem C5_compare_symmetry_witness :
    (compareAreas 40 60 "A" "B").diff_percentage =
      (compareAreas 60 40 "B" "A").diff_percentage ∧
    ((40 : ℚ) ≠ 60 ∧ compareAreas 40 60 "A" "B" = compareAreas 60 40 "B" "A") ∧
    (min (40 : ℚ) 60 ≠ 0 ∧ (compareAreas 40 60 "A" "B").diff_percentage =
      PyFloat.fin ((max (40 : ℚ) 60 - min (40 : ℚ) 60) / min (40 : ℚ) 60 * 100)) :=
  ⟨(C5_compare_symmetry 40 60 "A" "B").1,
    ⟨by norm_num, (C5_compare_symmetry 40 60 "A" "B").2.1 (by norm_num)⟩,
    ⟨by norm_num, (C5_compare_symmetry 40 60 "A" "B").2.2 (by norm_num)⟩⟩

/-- Counterexample to claim C10 as stated: at the zero-area tie
(`area_1 = area_2 = 0`, reachable with two all-zero curves) the second
branch computes `0.0 / 0.0 = nan`, so the message reads "absorbs nan%
more", not the claimed "absorbs 0.00% more". -/
theorem C10_zero_tie_counterexample :
    (compareAreas 0 0 "L1" "L2").absorption_message =
      PyVal.boundCapitalize "L2 absorbs nan% more than L1." ∧
    (compareAreas 0 0 "L1" "L2").absorption_message ≠
      PyVal.boundCapitalize "L2 absorbs 0.00% more than L1." := by
  rw [compareAreas_le 0 0 "L1" "L2" (le_refl 0)]
  have hp : pctOf (0 - 0 : ℚ) 0 = PyFloat.nan := by
    unfold pctOf
    rw [if_pos rfl, if_pos (by norm_num)]
  rw [hp]
  exact ⟨by decide, by decide⟩

/-- Claim C10 (amended): when the two areas are exactly equal the
comparison takes the second branch — it divides by `area_1` and credits
"absorbs … more" to the second dataset's label, with no dedicated
equal-areas case; the displayed percentage is `0.00` when the common area
is nonzero, and the unguarded `0.0 / 0.0` yields `nan` ("absorbs nan%
more") when both areas are zero. -/
theorem C10_tie_takes_second_branch (a : ℚ) (L1 L2 : String) :
    (a ≠ 0 → compareAreas a a L1 L2 =
      { diff_percentage := PyFloat.fin 0
        absorption_message := PyVal.boundCapitalize
          (format_filename L2 ++ (" absorbs 0.00% more than " ++
            (format_filename L1 ++ "."))) }) ∧
    (a = 0 → compareAreas a a L1 L2 =
      { diff_percentage := PyFloat.nan
        absorption_message := PyVal.boundCapitalize
          (format_filename L2 ++ (" absorbs nan% more than " ++
            (format_filename L1 ++ "."))) }) := by
  constructor
  · intro ha
    rw [compareAreas_le a a L1 L2 (le_refl a)]
    have hp : pctOf (a - a) a = PyFloat.fin 0 := by
      unfold pctOf
      rw [if_neg ha]
      norm_num
    rw [hp, show pyFormat2f (PyFloat.fin 0) = "0.00" from format2f_zero]
    simp only [String.append_assoc]
    rfl
  · intro ha
    subst ha
    rw [compareAreas_le 0 0 L1 L2 (le_refl 0)]
    have hp : pctOf (0 - 0 : ℚ) 0 = PyFloat.nan := by
      unfold pctOf
      rw [if_pos rfl, if_pos (by norm_num)]
    rw [hp]
    simp only [String.append_assoc]
    rfl

/-- Witness for C10 (amended): the nonzero tie at area `50` and the
zero-area tie, labels `"File_1"`, `"File_2"`. -/
theorem C10_tie_takes_second_branch_witness :
    ((50 : ℚ) ≠ 0 ∧
      compareAreas 50 50 "File_1" "File_2" =
        { diff_percentage := PyFloat.fin 0
          absorption_message := PyVal.boundCapitalize
            (format_filename "File_2" ++ (" absorbs 0.00% more than " ++
              (format_filename "File_1" ++ "."))) }) ∧
    ((0 : ℚ) = 0 ∧
      compareAreas 0 0 "File_1" "File_2" =
        { diff_percentage := PyFloat.nan
          absorption_message := PyVal.boundCapitalize
            (format_filename "File_2" ++ (" absorbs nan% more than " ++
              (format_filename "File_1" ++ "."))) }) :=
  ⟨⟨by norm_num,
      (C10_tie_takes_second_branch 50 "File_1" "File_2").1 (by norm_num)⟩,
    ⟨rfl, (C10_tie_takes_second_branch 0 "File_1" "File_2").2 rfl⟩⟩

/-- Claim C4 evaluated at a failing input: with curve A = `[0.5, 0.5]`
(area 50) and curve B = `[0, 0]` (area 0) over frequencies `[100, 200]`,
the code takes the first branch and divides by the zero area with no
guard: the percentage is the non-finite `inf` — no `DivisionByZeroError`
is raised and a message is still produced, reading `inf%`. -/
theorem C4_division_not_guarded :
    (compareAreas (calculate_area [100, 200] [0.5, 0.5])
      (calculate_area [100, 200] [0, 0]) "File_1" "File_2").diff_percentage =
      PyFloat.inf ∧
    (compareAreas (calculate_area [100, 200] [0.5, 0.5])
      (calculate_area [100, 200] [0, 0]) "File_1" "File_2").absorption_message =
      PyVal.boundCapitalize "File 1 absorbs inf% more than File 2." := by
  have h1 : calculate_area [100, 200] [0.5, 0.5] = 50 := by
    norm_num [calculate_area]
  have h2 : calculate_area [100, 200] [0, 0] = 0 := by
    norm_num [calculate_area]
  rw [h1, h2, compareAreas_gt 50 0 "File_1" "File_2" (by norm_num)]
  have hp : pctOf (50 - 0 : ℚ) 0 = PyFloat.inf := by
    unfold pctOf
    rw [if_pos rfl, if_neg (by norm_num)]
  rw [hp]
  exact ⟨rfl, by decide⟩

/-- Counterexample to claim C7 as stated: the trapezoidal area of curve A
over `[100, 500, 1000, 2000]` is `1070`, not `550` — the spec's scenario
numbers do not match the trapezoidal rule it states. -/
theorem C7_area_counterexample :
    calculate_area [100, 500, 1000, 2000] [0.2, 0.4, 0.6, 0.8] ≠ 550 := by
  norm_num [calculate_area]

/-- Claim C7 (amended): in the end-to-end scenario the computed areas are
`1070.0` and `1165.0`, the percentage is `950/107 ≈ 8.88`, and the
comparison sentence built is "Dataset B absorbs 8.88% more than Dataset
A." — stored as that sentence's `.capitalize` bound method (the source
omits the call parentheses), not as a plain string. -/
theorem C7_end_to_end :
    calculate_area [100, 500, 1000, 2000] [0.2, 0.4, 0.6, 0.8] = 1070 ∧
    calculate_area [100, 500, 1000, 2000] [0.25, 0.45, 0.65, 0.85] = 1165 ∧
    compareAreas (calculate_area [100, 500, 1000, 2000] [0.2, 0.4, 0.6, 0.8])
      (calculate_area [100, 500, 1000, 2000] [0.25, 0.45, 0.65, 0.85])
      "Dataset_A" "Dataset_B" =
      { diff_percentage := PyFloat.fin (950 / 107)
        absorption_message := PyVal.boundCapitalize
          "Dataset B absorbs 8.88% more than Dataset A." } := by
  have h1 : calculate_area [100, 500, 1000, 2000] [0.2, 0.4, 0.6, 0.8] = 1070 := by
    norm_num [calculate_area]
  have h2 : calculate_area [100, 500, 1000, 2000] [0.25, 0.45, 0.65, 0.85] = 1165 := by
    norm_num [calculate_area]
  refine ⟨h1, h2, ?_⟩
  rw [h1, h2, compareAreas_le 1070 1165 "Dataset_A" "Dataset_B" (by norm_num)]
  have hp : pctOf (1165 - 1070 : ℚ) 1070 = PyFloat.fin (950 / 107) := by
    unfold pctOf
    rw [if_neg (by norm_num)]
    simp only [PyFloat.fin.injEq]
    norm_num
  rw [hp]
  have hf : pyFormat2f (PyFloat.fin (950 / 107)) = "8.88" := by
    show format2f (950 / 107) = "8.88"
    have hr : round ((950 / 107 : ℚ) * 100) = 888 := by
      rw [round_val ((950 / 107 : ℚ) * 100) 190107 214 (by norm_num)]
      decide
    unfold format2f
    rw [if_neg (by norm_num), hr]
    decide
  rw [hf]
  congr 1

/-- Claim C8: for every absorption matrix and every thickness and density
present in the configured grids, the selected curve is exactly the matrix
column at `index_of(thickness) * len(densities) + index_of(density)`,
where each index is the first match in the fixed grids `[10, 20, 30]` and
`[75, 110, 150]`. -/
theorem C8_select_column (data : List (List ℚ)) (t d : ℕ)
    (ht : t ∈ thicknessesGrid) (hd : d ∈ densitiesGrid) :
    ∃ ti di,
      whereFirst thicknessesGrid t = some ti ∧
      whereFirst densitiesGrid d = some di ∧
      thicknessesGrid.getD ti 0 = t ∧
      (∀ j, j < ti → thicknessesGrid.getD j 0 ≠ t) ∧
      densitiesGrid.getD di 0 = d ∧
      (∀ j, j < di → densitiesGrid.getD j 0 ≠ d) ∧
      absorption_curve data t d =
        some (matrixColumn data (ti * densitiesGrid.length + di)) := by
  have ht3 : t = 10 ∨ t = 20 ∨ t = 30 := by simpa [thicknessesGrid] using ht
  have hd3 : d = 75 ∨ d = 110 ∨ d = 150 := by simpa [densitiesGrid] using hd
  rcases ht3 with rfl | rfl | rfl <;> rcases hd3 with rfl | rfl | rfl
  · exact ⟨0, 0, by decide, by decide, by decide, by decide, by decide, by decide, rfl⟩
  · exact ⟨0, 1, by decide, by decide, by decide, by decide, by decide, by decide, rfl⟩
  · exact ⟨0, 2, by decide, by decide, by decide, by decide, by decide, by decide, rfl⟩
  · exact ⟨1, 0, by decide, by decide, by decide, by decide, by decide, by decide, rfl⟩
  · exact ⟨1, 1, by decide, by decide, by decide, by decide, by decide, by decide, rfl⟩
  · exact ⟨1, 2, by decide, by decide, by decide, by decide, by decide, by decide, rfl⟩
  · exact ⟨2, 0, by decide, by decide, by decide, by decide, by decide, by decide, rfl⟩
  · exact ⟨2, 1, by decide, by decide, by decide, by decide, by decide, by decide, rfl⟩
  · exact ⟨2, 2, by decide, by decide, by decide, by decide, by decide, by decide, rfl⟩

/-- Witness for C8 at thickness `20`, density `150` on a concrete one-row
matrix: the selected column is column `1 * 3 + 2 = 5`. -/
theorem C8_select_column_witness :
    20 ∈ thicknessesGrid ∧ 150 ∈ densitiesGrid ∧
    (∃ ti di,
      whereFirst thicknessesGrid 20 = some ti ∧
      whereFirst densitiesGrid 150 = some di ∧
      thicknessesGrid.getD ti 0 = 20 ∧
      (∀ j, j < ti → thicknessesGrid.getD j 0 ≠ 20) ∧
      densitiesGrid.getD di 0 = 150 ∧
      (∀ j, j < di → densitiesGrid.getD j 0 ≠ 150) ∧
      absorption_curve [[0, 1, 2, 3, 4, 5, 6, 7, 8]] 20 150 =
        some (matrixColumn [[0, 1, 2, 3, 4, 5, 6, 7, 8]]
          (ti * densitiesGrid.length + di))) :=
  ⟨by decide, by decide,
    C8_select_column [[0, 1, 2, 3, 4, 5, 6, 7, 8]] 20 150 (by decide) (by decide)⟩

/-- The interpolant of the spec-modelled Aligner returns the stored value
at every knot of a strictly increasing axis. -/
theorem interp_at_knot (pts : List (ℚ × ℚ))
    (hmono : List.Pairwise (fun p q => p.1 < q.1) pts)
    (i : ℕ) (h : i < pts.length) :
    interp pts (pts.get ⟨i, h⟩).1 = (pts.get ⟨i, h⟩).2 := by
  induction pts generalizing i with
  | nil => simp at h
  | cons p1 rest ih =>
    cases rest with
    | nil =>
      have hi : i = 0 := by
        simp at h
        omega
      subst hi
      simp [interp]
    | cons p2 rest2 =>
      have hmono2 : List.Pairwise (fun p q => p.1 < q.1) (p2 :: rest2) :=
        (List.pairwise_cons.mp hmono).2
      have h12 : p1.1 < p2.1 :=
        (List.pairwise_cons.mp hmono).1 p2 (by simp)
      have hne : p2.1 - p1.1 ≠ 0 := sub_ne_zero.mpr (ne_of_gt h12)
      cases i with
      | zero =>
        show interp (p1 :: p2 :: rest2) p1.1 = p1.2
        rw [interp, if_pos (Or.inl (le_of_lt h12))]
        unfold interpSeg
        rw [sub_self, zero_mul, zero_div, add_zero]
      | succ j =>
        have hj : j < (p2 :: rest2).length := by
          simp at h ⊢
          omega
        show interp (p1 :: p2 :: rest2) ((p2 :: rest2).get ⟨j, hj⟩).1 =
          ((p2 :: rest2).get ⟨j, hj⟩).2
        cases j with
        | zero =>
          show interp (p1 :: p2 :: rest2) p2.1 = p2.2
          rw [interp, if_pos (Or.inl (le_refl p2.1))]
          unfold interpSeg
          field_simp
        | succ k =>
          have hk : k < rest2.length := by
            simpa using hj
          have hmem : (p2 :: rest2).get ⟨k + 1, hj⟩ = rest2.get ⟨k, hk⟩ := rfl
          have hgt : p2.1 < ((p2 :: rest2).get ⟨k + 1, hj⟩).1 := by
            rw [hmem]
            exact (List.pairwise_cons.mp hmono2).1 _ (rest2.get_mem k hk)
          have hrest : rest2 ≠ [] := List.ne_nil_of_length_pos (by omega)
          rw [interp, if_neg (not_or.mpr ⟨not_le.mpr hgt, hrest⟩)]
          exact ih hmono2 (k + 1) hj

/-- Resampling a column onto its own strictly increasing axis reproduces
the column. -/
theorem map_interp_self (f col : List ℚ)
    (hmono : List.Pairwise (fun a b : ℚ => a < b) f) (hlen : col.length = f.length) :
    f.map (fun q => interp (f.zip col) q) = col := by
  apply List.ext_get
  · simp [hlen]
  intro i h1 h2
  have hif : i < f.length := by simpa using h1
  have hz : i < (f.zip col).length := by
    rw [List.length_zip, hlen, min_self]
    exact hif
  have hpair : List.Pairwise (fun p q : ℚ × ℚ => p.1 < q.1) (f.zip col) := by
    have hmap : (f.zip col).map Prod.fst = f := List.map_fst_zip f col (by omega)
    rw [← hmap] at hmono
    exact List.pairwise_map.mp hmono
  have hknot := interp_at_knot (f.zip col) hpair i hz
  have hget : (f.zip col).get ⟨i, hz⟩ = (f.get ⟨i, hif⟩, col.get ⟨i, h2⟩) :=
    List.getElem_zip
  rw [hget] at hknot
  rw [List.get_map]
  exact hknot

/-- Claim C9: alignment is the identity when the two frequency series are
exactly equal — `align(f, f, data)` returns `data` unchanged (exactly, in
the rational model) for a strictly increasing axis whose length matches
every column — and the caller (`reconcile`) leaves the data untouched when
the axes are equal, invoking the Aligner only when they differ. -/
theorem C9_align_self_identity (f : List ℚ) (cols : List (List ℚ))
    (hmono : List.Pairwise (fun a b : ℚ => a < b) f)
    (hlen : ∀ col ∈ cols, col.length = f.length) :
    alignCols f f cols = cols ∧ reconcile f f cols = cols := by
  have h1 : alignCols f f cols = cols := by
    unfold alignCols
    have hcol : ∀ col ∈ cols, f.map (fun q => interp (f.zip col) q) = id col := by
      intro col hc
      exact map_interp_self f col hmono (hlen col hc)
    rw [List.map_congr_left hcol, List.map_id]
  exact ⟨h1, by rw [reconcile, if_pos rfl]⟩

/-- Witness for C9 at `f = [100, 200]`, one data column `[1, 2]`. -/
theorem C9_align_self_identity_witness :
    List.Pairwise (fun a b : ℚ => a < b) [100, 200] ∧
    (∀ col ∈ ([[1, 2]] : List (List ℚ)), col.length = ([100, 200] : List ℚ).length) ∧
    (alignCols [100, 200] [100, 200] [[1, 2]] = [[1, 2]] ∧
      reconcile [100, 200] [100, 200] [[1, 2]] = [[1, 2]]) :=
  ⟨by norm_num, by decide,
    C9_align_self_identity [100, 200] [[1, 2]] (by norm_num) (by decide)⟩

end DataComparaison
